import Mathlib

/-!
Verification development for the Teltonika firmware updater repository.

The definitions below are a shallow embedding of the TypeScript sources:
  - src/lib/ssh-service.ts   (remote shell client, firmware probe, update pipeline)
  - src/lib/db.ts            (SQLite-backed store operations)
  - the batch update route    (rollout engine, event emission)
  - the event emitter module

Remote command executions are modelled by oracles: a `DeviceEnv` record holds
the result each remote command would produce, and reboot polling is a function
from attempt index to the version string read (or `none`).  JavaScript string
truthiness (empty string is falsy) is modelled explicitly by `jsTruthy`.
-/

namespace Teltonika

/-- JS `String.prototype.includes`: substring containment on the char lists. -/
def includes (s sub : String) : Bool :=
  (List.range (s.data.length + 1)).any fun i => sub.data.isPrefixOf (s.data.drop i)

/-- JS truthiness of a nullable string: `null`, `undefined` and `""` are falsy. -/
def jsTruthy : Option String → Bool
  | none => false
  | some s => !(s == "")

/-- JS `a || b` on nullable strings: yields `b` whenever `a` is falsy. -/
def jsOr (a b : Option String) : Option String :=
  if jsTruthy a then a else b

/-- Result of one remote command execution (the resolved/rejected promise of
`executeSSHCommand`): trimmed stdout on resolve, the error message on reject. -/
inductive ExecResult where
  | ok (out : String)
  | err (msg : String)
deriving DecidableEq, Repr

/-- Oracle for one device during `performUpdate`: the outcome of each remote
command the pipeline issues, in the order the source issues them.
`catVersion` is the raw result of `cat /etc/version` (60 s timeout),
`fileCheck` of `ls -la /tmp/firmware.img 2>/dev/null || echo "NOT_FOUND"`,
`downloadCmd` of `rut_fota --download_fw` (5 min timeout), `downloadCheck`
of the re-check of the image path, `verifyCmd` of
`sysupgrade -T /tmp/firmware.img`, and `flashCmd` of
`sysupgrade -c /tmp/firmware.img` (issued with the 120 s timeout). -/
structure DeviceEnv where
  catVersion : ExecResult
  fileCheck : ExecResult
  downloadCmd : ExecResult
  downloadCheck : ExecResult
  verifyCmd : ExecResult
  flashCmd : ExecResult
deriving DecidableEq, Repr

/-- `getFirmwareVersion` (ssh-service.ts): runs `cat /etc/version`, catches any
error as `null`, and coerces empty output to `null` (`version || null`). -/
def getFirmwareVersion (e : DeviceEnv) : Option String :=
  match e.catVersion with
  | .ok s => if s == "" then none else some s
  | .err _ => none

/-- `downloadFirmware` (ssh-service.ts): runs the vendor download command, then
checks the image path; any thrown error is caught and yields `false`. -/
def downloadFirmware (e : DeviceEnv) : Bool :=
  match e.downloadCmd with
  | .err _ => false
  | .ok _ =>
    match e.downloadCheck with
    | .err _ => false
    | .ok s => !(includes s "NOT_FOUND")

/-- Result record of `performUpdate` (ssh-service.ts). -/
structure UpdateResult where
  success : Bool
  firmwareBefore : Option String
  firmwareAfter : Option String
  error : Option String
deriving DecidableEq, Repr

/-- `performUpdate` (ssh-service.ts lines 181-231): read the current version,
check for an already-present image (downloading it if absent), verify the
image, then issue the upgrade command.  An error thrown by the upgrade command
whose message contains "closed" is swallowed (the session died because the
device is rebooting); any other upgrade error fails the update with
`Upgrade command failed: <msg>`.  Errors of the earlier steps fail with their
own messages; a thrown file-check error reaches the outer catch. -/
def performUpdate (e : DeviceEnv) : UpdateResult :=
  let before := getFirmwareVersion e
  match e.fileCheck with
  | .err m =>
    { success := false, firmwareBefore := before, firmwareAfter := none,
      error := some m }
  | .ok fc =>
    if includes fc "NOT_FOUND" && !downloadFirmware e then
      { success := false, firmwareBefore := before, firmwareAfter := none,
        error := some "Firmware download failed" }
    else
      match e.verifyCmd with
      | .err _ =>
        { success := false, firmwareBefore := before, firmwareAfter := none,
          error := some "Firmware image verification failed" }
      | .ok _ =>
        match e.flashCmd with
        | .err m =>
          if includes m "closed" then
            { success := true, firmwareBefore := before, firmwareAfter := none,
              error := none }
          else
            { success := false, firmwareBefore := before, firmwareAfter := none,
              error := some ("Upgrade command failed: " ++ m) }
        | .ok _ =>
          { success := true, firmwareBefore := before, firmwareAfter := none,
            error := none }

/-- Result record of `verifyUpdateAfterReboot` (ssh-service.ts). -/
structure VerifyResult where
  success : Bool
  newVersion : Option String
  error : Option String
deriving DecidableEq, Repr

/-- Loop body of `verifyUpdateAfterReboot` (ssh-service.ts lines 239-255):
`i` is the current attempt index, the second argument the number of attempts
still allowed (`maxRetries - i`); `polls i` is the value `getFirmwareVersion`
returns on attempt `i`.  The loop returns at the first truthy reading, judging
it against `expectedVersion` only when that is truthy; exhaustion yields the
"did not come back online" error. -/
def verifyLoop (polls : Nat → Option String) (expected : Option String)
    (i : Nat) : Nat → VerifyResult
  | 0 =>
    { success := false, newVersion := none,
      error := some "Router did not come back online after update" }
  | fuel + 1 =>
    let nv := polls i
    if jsTruthy nv then
      { success := if jsTruthy expected then nv == expected else true,
        newVersion := nv, error := none }
    else
      verifyLoop polls expected (i + 1) fuel

/-- `verifyUpdateAfterReboot` (ssh-service.ts lines 233-256): poll the version
up to `maxRetries` times (the callers pass 20, with 30 s between attempts). -/
def verifyUpdateAfterReboot (polls : Nat → Option String)
    (expected : Option String) (maxRetries : Nat) : VerifyResult :=
  verifyLoop polls expected 0 maxRetries

/-- If no attempt with index in `[i, i+fuel)` reads a truthy version, the loop
exhausts its retries and reports the offline error. -/
theorem verifyLoop_all_falsy (polls : Nat → Option String)
    (expected : Option String) :
    ∀ fuel i, (∀ k, k < fuel → jsTruthy (polls (i + k)) = false) →
      verifyLoop polls expected i fuel =
        { success := false, newVersion := none,
          error := some "Router did not come back online after update" } := by
  intro fuel
  induction fuel with
  | zero => intro i _; rfl
  | succ n ih =>
    intro i h
    have h0 : jsTruthy (polls i) = false := by simpa using h 0 (Nat.succ_pos n)
    have hrest : ∀ k, k < n → jsTruthy (polls (i + 1 + k)) = false := by
      intro k hk
      have := h (k + 1) (Nat.succ_lt_succ hk)
      simpa [Nat.add_comm, Nat.add_left_comm, Nat.add_assoc] using this
    simp [verifyLoop, h0, ih (i + 1) hrest]

/-- The loop returns at the first truthy reading. -/
theorem verifyLoop_first_truthy (polls : Nat → Option String)
    (expected : Option String) :
    ∀ fuel i j, i ≤ j → j < i + fuel → jsTruthy (polls j) = true →
      (∀ k, i ≤ k → k < j → jsTruthy (polls k) = false) →
      verifyLoop polls expected i fuel =
        { success := if jsTruthy expected then polls j == expected else true,
          newVersion := polls j, error := none } := by
  intro fuel
  induction fuel with
  | zero =>
    intro i j hij hlt _ _
    omega
  | succ n ih =>
    intro i j hij hlt htru hbefore
    by_cases hi : i = j
    · subst hi
      simp [verifyLoop, htru]
    · have hij' : i + 1 ≤ j := by omega
      have h0 : jsTruthy (polls i) = false := hbefore i (Nat.le_refl i) (by omega)
      have := ih (i + 1) j hij' (by omega) htru
        (fun k hk1 hk2 => hbefore k (by omega) hk2)
      simp [verifyLoop, h0, this]

end Teltonika

namespace Teltonika

/-- Row of the `routers` table (db.ts schema lines 18-30). -/
structure RouterRow where
  id : String
  device_name : String
  ip_address : String
  username : Option String
  password : Option String
  current_firmware : Option String
  available_firmware : Option String
  last_check : Option String
  status : String
  created_at : String
  updated_at : String
deriving DecidableEq, Repr

/-- Input record of `routerDb.insert` / `routerDb.insertMany`: the router
columns the statement binds (the others take their schema defaults). -/
structure RouterInsert where
  id : String
  device_name : String
  ip_address : String
  username : Option String
  password : Option String
  status : String
deriving DecidableEq, Repr

/-- The row produced by inserting `x` at time `now`: the unbound columns take
their defaults (`NULL`, `CURRENT_TIMESTAMP`). -/
def rowOfInsert (x : RouterInsert) (now : String) : RouterRow :=
  { id := x.id, device_name := x.device_name, ip_address := x.ip_address
    username := x.username, password := x.password
    current_firmware := none, available_firmware := none, last_check := none
    status := x.status, created_at := now, updated_at := now }

/-- A stored row conflicts with an insert when it collides on the primary key
`id` or on the `UNIQUE` column `ip_address`. -/
def conflictsWith (x : RouterInsert) (r : RouterRow) : Bool :=
  r.id == x.id || r.ip_address == x.ip_address

/-- SQLite `INSERT OR REPLACE`: delete every row that conflicts on the primary
key or a unique constraint, then insert the fresh row. -/
def insertOrReplaceRouter (now : String) (s : List RouterRow)
    (x : RouterInsert) : List RouterRow :=
  (s.filter fun r => !(conflictsWith x r)) ++ [rowOfInsert x now]

/-- `routerDb.insertMany` (db.ts lines 144-155): one transaction running
`INSERT OR REPLACE` for each record in order. -/
def insertMany (xs : List RouterInsert) (now : String) (s : List RouterRow) :
    List RouterRow :=
  xs.foldl (insertOrReplaceRouter now) s

/-- A stored row survives a batch of inserts when it conflicts with none. -/
def noClashAny (xs : List RouterInsert) (r : RouterRow) : Bool :=
  xs.all fun y => !(conflictsWith y r)

/-- The rows a batch of inserts itself contributes: each record whose row is
not replaced by a later record of the same batch. -/
def survivors (now : String) : List RouterInsert → List RouterRow
  | [] => []
  | x :: rest =>
    (if noClashAny rest (rowOfInsert x now) then [rowOfInsert x now] else [])
      ++ survivors now rest

theorem insertMany_normal_form (xs : List RouterInsert) (now : String) :
    ∀ s : List RouterRow,
      insertMany xs now s = s.filter (noClashAny xs) ++ survivors now xs := by
  induction xs with
  | nil =>
    intro s
    simp only [insertMany, List.foldl_nil, survivors, List.append_nil]
    symm
    apply List.filter_eq_self.mpr
    intro a _
    simp [noClashAny]
  | cons x rest ih =>
    intro s
    have step : insertMany (x :: rest) now s =
        insertMany rest now (insertOrReplaceRouter now s x) := rfl
    rw [step, ih]
    simp only [insertOrReplaceRouter, List.filter_append, List.filter_filter]
    have hfc : (s.filter fun a => noClashAny rest a && !conflictsWith x a) =
        s.filter (noClashAny (x :: rest)) := by
      apply List.filter_congr
      intro r _
      simp [noClashAny, Bool.and_comm]
    have hsingle : ([rowOfInsert x now].filter (noClashAny rest)) =
        (if noClashAny rest (rowOfInsert x now) then [rowOfInsert x now] else []) := by
      simp [List.filter]
      split <;> simp_all [List.filter]
    rw [hfc, hsingle]
    simp [survivors, List.append_assoc]

/-- Every row contributed by a batch of inserts clashes with the batch itself
(each record conflicts with its own row), so a second run replaces them all. -/
theorem survivors_filter_self (xs : List RouterInsert) (t : String) :
    ∀ ys : List RouterInsert, (∀ x ∈ ys, x ∈ xs) →
      (survivors t ys).filter (noClashAny xs) = [] := by
  intro ys
  induction ys with
  | nil => intro _; simp [survivors]
  | cons x rest ih =>
    intro hsub
    have hx : x ∈ xs := hsub x (List.mem_cons_self x rest)
    have hclash : noClashAny xs (rowOfInsert x t) = false := by
      rw [Bool.eq_false_iff]
      intro htrue
      simp only [noClashAny, List.all_eq_true] at htrue
      have := htrue x hx
      simp [conflictsWith, rowOfInsert] at this
    have hrest := ih fun y hy => hsub y (List.mem_cons_of_mem x hy)
    simp only [survivors, List.filter_append, hrest, List.append_nil]
    split <;> simp [List.filter, hclash]

/-- C9: running `insertMany` a second time with the same record list produces
the same routers-table state as a single run (each re-inserted record replaces
exactly the row its first run produced); this holds even when the two runs
observe different `CURRENT_TIMESTAMP` values, the second run determining the
resulting defaults. -/
theorem insertMany_idempotent (xs : List RouterInsert) (t1 t2 : String)
    (s : List RouterRow) :
    insertMany xs t2 (insertMany xs t1 s) = insertMany xs t2 s := by
  rw [insertMany_normal_form xs t1 s, insertMany_normal_form xs t2,
    insertMany_normal_form xs t2 s]
  rw [List.filter_append, List.filter_filter]
  have h1 : (s.filter fun r => noClashAny xs r && noClashAny xs r) =
      s.filter (noClashAny xs) := by
    apply List.filter_congr
    intro r _
    cases noClashAny xs r <;> simp
  have h2 := survivors_filter_self xs t1 xs (fun _ hx => hx)
  rw [h1, h2, List.append_nil]

/-- Row of the `batch_jobs` table (db.ts schema lines 52-62). -/
structure JobRow where
  id : String
  status : String
  batch_size : Nat
  total_routers : Nat
  completed_routers : Nat
  failed_routers : Nat
  created_at : String
  started_at : Option String
  completed_at : Option String
deriving DecidableEq, Repr

/-- Row of the `update_history` table (db.ts schema lines 33-43). -/
structure HistoryRow where
  id : String
  router_id : String
  firmware_before : Option String
  firmware_after : Option String
  status : String
  error_message : Option String
  started_at : Option String
  completed_at : Option String
deriving DecidableEq, Repr

/-- The persistent state of the database module. -/
structure DbState where
  schemaReady : Bool
  routers : List RouterRow
  update_history : List HistoryRow
  batch_jobs : List JobRow
  firmware_versions : List FirmwareVersionRow
  settings : List (String × String)

/-- Module initialization of db.ts (lines 16-75): it executes only
`CREATE TABLE IF NOT EXISTS` and `CREATE INDEX IF NOT EXISTS` statements,
which create missing tables and indexes and neither read nor write any row. -/
def initDb (s : DbState) : DbState :=
  { s with schemaReady := true }

/-- Durable state as it would be found right after a crash during a rollout:
one router left `updating`, its history row left `running`, the owning job
left `running`; the in-memory abort-flag map is empty after a restart. -/
def staleRouter : RouterRow :=
  { id := "r1", device_name := "Router001", ip_address := "10.0.0.1"
    username := none, password := none
    current_firmware := some "RUT9_R_00.07.06.11"
    available_firmware := some "RUT9_R_00.07.06.20", last_check := none
    status := "updating", created_at := "t0", updated_at := "t0" }

/-- The history row the crashed attempt left behind. -/
def staleHistory : HistoryRow :=
  { id := "h1", router_id := "r1"
    firmware_before := some "RUT9_R_00.07.06.11", firmware_after := none
    status := "running", error_message := none, started_at := some "t0"
    completed_at := none }

/-- The job row the crashed rollout left behind. -/
def staleJob : JobRow :=
  { id := "j1", status := "running", batch_size := 5, total_routers := 1
    completed_routers := 0, failed_routers := 0, created_at := "t0"
    started_at := some "t0", completed_at := none }

/-- The durable state right after the crash. -/
def staleState : DbState :=
  { schemaReady := true, routers := [staleRouter]
    update_history := [staleHistory], batch_jobs := [staleJob]
    firmware_versions := [], settings := [] }

/-- Counterexample to C3 as stated: after module initialization the stale
`updating` router, the orphaned `running` job (whose in-memory abort-flag
entry is necessarily absent after a restart) and the `running` history row
all keep their statuses — none is reconciled to `error`, `cancelled` or
`failed`. -/
theorem initDb_no_reconciliation :
    ((initDb staleState).routers.any fun r => r.status == "updating") = true ∧
    ((initDb staleState).batch_jobs.any fun j => j.status == "running") = true ∧
    ((initDb staleState).update_history.any fun h => h.status == "running")
      = true := by
  decide

/-- C3 (amended): module initialization performs no reconciliation at all —
the routers, batch-jobs and update-history tables are left untouched, so
stale `updating`, `pending`/`running` and `running` statuses persist across a
process restart. -/
theorem initDb_preserves_rows (s : DbState) :
    (initDb s).routers = s.routers ∧
    (initDb s).batch_jobs = s.batch_jobs ∧
    (initDb s).update_history = s.update_history := by
  exact ⟨rfl, rfl, rfl⟩

end Teltonika

namespace Teltonika

/-- C1: in `performUpdate`, the flash step (`sysupgrade -c`, issued with the
120 s command timeout) treats an error whose message contains "closed" as
success of the submission; any flash error whose message does not contain
"closed" fails the update with `Upgrade command failed: <msg>`; an error in
every other step is a real failure (the thrown file-check error propagates,
a failed download yields "Firmware download failed", a failed verification
yields "Firmware image verification failed"). -/
theorem performUpdate_flash_closed_contract (e : DeviceEnv) :
    (∀ fc, e.fileCheck = .ok fc →
      (includes fc "NOT_FOUND" = true → downloadFirmware e = true) →
      ∀ vo, e.verifyCmd = .ok vo →
      ∀ m, e.flashCmd = .err m →
        (includes m "closed" = true → (performUpdate e).success = true) ∧
        (includes m "closed" = false →
          (performUpdate e).success = false ∧
          (performUpdate e).error = some ("Upgrade command failed: " ++ m))) ∧
    (∀ m, e.fileCheck = .err m →
      (performUpdate e).success = false ∧ (performUpdate e).error = some m) ∧
    (∀ fc, e.fileCheck = .ok fc → includes fc "NOT_FOUND" = true →
      downloadFirmware e = false →
      (performUpdate e).success = false ∧
      (performUpdate e).error = some "Firmware download failed") ∧
    (∀ fc, e.fileCheck = .ok fc →
      (includes fc "NOT_FOUND" = true → downloadFirmware e = true) →
      ∀ m, e.verifyCmd = .err m →
      (performUpdate e).success = false ∧
      (performUpdate e).error = some "Firmware image verification failed") := by
  refine ⟨?_, ?_, ?_, ?_⟩
  · intro fc hfc hdl vo hv m hm
    have hcond : (includes fc "NOT_FOUND" && !downloadFirmware e) = false := by
      cases hNF : includes fc "NOT_FOUND" with
      | false => simp
      | true => simp [hdl hNF]
    constructor
    · intro hcl
      simp [performUpdate, hfc, hcond, hv, hm, hcl]
    · intro hcl
      simp [performUpdate, hfc, hcond, hv, hm, hcl]
  · intro m hm
    simp [performUpdate, hm]
  · intro fc hfc hNF hdl
    simp [performUpdate, hfc, hNF, hdl]
  · intro fc hfc hdl m hm
    have hcond : (includes fc "NOT_FOUND" && !downloadFirmware e) = false := by
      cases hNF : includes fc "NOT_FOUND" with
      | false => simp
      | true => simp [hdl hNF]
    simp [performUpdate, hfc, hcond, hm]

/-- Concrete device oracle: the image is already present, verification passes,
and the upgrade command dies with a session-closed error mid-reboot. -/
def flashClosedEnv : DeviceEnv :=
  { catVersion := .ok "RUT9_R_00.07.06.11"
    fileCheck := .ok "-rw-r--r-- 1 root root 8388608 /tmp/firmware.img"
    downloadCmd := .ok ""
    downloadCheck := .ok ""
    verifyCmd := .ok "Image check passed."
    flashCmd := .err "Connection closed by remote host" }

/-- Witness for C1 at a concrete oracle: the session-closed flash error is
reported as success. -/
theorem performUpdate_flash_closed_contract_witness :
    (performUpdate flashClosedEnv).success = true := by
  have h := (performUpdate_flash_closed_contract flashClosedEnv).1
    "-rw-r--r-- 1 root root 8388608 /tmp/firmware.img" rfl (by decide)
    "Image check passed." rfl "Connection closed by remote host" rfl
  exact h.1 (by decide)

/-- C2 (amended): reboot verification returns at the first of the 20 polls
that yields a truthy version, succeeding exactly when that version equals the
recorded `available_firmware` (or always, when no truthy expectation was
recorded); a reading on the 20th attempt is still examined; only when all 20
polls are falsy does it fail, and only that failure carries the error
"Router did not come back online after update". -/
theorem verifyUpdateAfterReboot_spec (polls : Nat → Option String)
    (expected : Option String) :
    ((∀ i, i < 20 → jsTruthy (polls i) = false) →
      verifyUpdateAfterReboot polls expected 20 =
        { success := false, newVersion := none,
          error := some "Router did not come back online after update" }) ∧
    (∀ j, j < 20 → jsTruthy (polls j) = true →
      (∀ i, i < j → jsTruthy (polls i) = false) →
      verifyUpdateAfterReboot polls expected 20 =
        { success := if jsTruthy expected then polls j == expected else true,
          newVersion := polls j, error := none }) := by
  constructor
  · intro h
    exact verifyLoop_all_falsy polls expected 20 0 (by simpa using h)
  · intro j hj htru hbefore
    exact verifyLoop_first_truthy polls expected 20 0 j (Nat.zero_le j)
      (by omega) htru (fun k _ hk => hbefore k hk)

/-- Poll oracle on which the claim fails: the device answers the very first
poll with the old version (it has not rebooted yet) and all later polls with
the expected new version. -/
def staleFirstPoll : Nat → Option String :=
  fun i => if i == 0 then some "RUT9_R_00.07.06.11" else some "RUT9_R_00.07.06.20"

/-- Counterexample to C2 as stated: a later poll does return the recorded
`available_firmware`, yet the step fails — and that failure does not carry the
"Router did not come back online after update" error. -/
theorem verifyUpdateAfterReboot_claim_false :
    (∃ i, i < 20 ∧ staleFirstPoll i = some "RUT9_R_00.07.06.20") ∧
    (verifyUpdateAfterReboot staleFirstPoll (some "RUT9_R_00.07.06.20") 20).success
      = false ∧
    ¬((verifyUpdateAfterReboot staleFirstPoll (some "RUT9_R_00.07.06.20") 20).error
      = some "Router did not come back online after update") := by
  refine ⟨⟨1, by decide, rfl⟩, by decide, by decide⟩

/-- Character class `[A-Z0-9]` of the family regex in `getLatestForFirmware`. -/
def isUpperAlnum (c : Char) : Bool :=
  (decide ('A' ≤ c) && decide (c ≤ 'Z')) || (decide ('0' ≤ c) && decide (c ≤ '9'))

/-- Match of the regex `^([A-Z0-9]+)_` (db.ts `getLatestForFirmware`): since
the class excludes the underscore, the regex matches exactly when the maximal
leading `[A-Z0-9]` run is nonempty and immediately followed by an underscore,
and the captured group is that run. -/
def extractFamily (s : String) : Option String :=
  let run := s.data.takeWhile isUpperAlnum
  match s.data.drop run.length with
  | '_' :: _ => if run.isEmpty then none else some (String.mk run)
  | _ => none

/-- `parseInt(_, 10)` on a string of decimal digits. -/
def natOfDigits (ds : List Char) : Nat :=
  ds.foldl (fun acc c => acc * 10 + (c.toNat - '0'.toNat)) 0

/-- On a reversed character list, strip one maximal nonempty digit run and
return its numeric value together with the remaining (still reversed) list. -/
def grabRunRev (l : List Char) : Option (Nat × List Char) :=
  let ds := l.takeWhile Char.isDigit
  if ds.isEmpty then none
  else some (natOfDigits ds.reverse, l.drop ds.length)

/-- Consume one literal dot on a reversed character list. -/
def expectDot : List Char → Option (List Char)
  | '.' :: t => some t
  | _ => none

/-- Match of the regex `/(\d+)\.(\d+)\.(\d+)\.(\d+)$/` under the JS
`String.match` leftmost-match rule: it succeeds exactly when the string ends
in four nonempty digit runs separated by dots, and each captured group is the
maximal such run (parsing from the right end); the groups are returned already
converted by `parseInt(_, 10)`. -/
def tailMatch (s : String) : Option (Nat × Nat × Nat × Nat) := do
  let r0 := s.data.reverse
  let (d, r1) ← grabRunRev r0
  let r2 ← expectDot r1
  let (c, r3) ← grabRunRev r2
  let r4 ← expectDot r3
  let (b, r5) ← grabRunRev r4
  let r6 ← expectDot r5
  let (a, _) ← grabRunRev r6
  pure (a, b, c, d)

/-- Row of the `firmware_versions` table; `deviceFamily` is the source column
`device_prefix` (the primary key), renamed here. -/
structure FirmwareVersionRow where
  deviceFamily : String
  latest_version : String
  updated_at : String
deriving DecidableEq, Repr

/-- `firmwareVersionDb.getByPrefix`: primary-key lookup. -/
def getByFamily (table : List FirmwareVersionRow) (p : String) :
    Option FirmwareVersionRow :=
  table.find? fun v => v.deviceFamily == p

/-- `firmwareVersionDb.getLatestForFirmware` (db.ts lines 277-285): extract
the device family from the firmware string and look up its latest version. -/
def getLatestForFirmware (table : List FirmwareVersionRow)
    (currentFirmware : String) : Option String :=
  match extractFamily currentFirmware with
  | none => none
  | some p => (getByFamily table p).map fun v => v.latest_version

/-- The comparison loop of `isUpdateAvailable` (db.ts lines 316-321), written
out over the four captured components of current and latest. -/
def compareTails : (Nat × Nat × Nat × Nat) → (Nat × Nat × Nat × Nat) → Bool
  | (c1, c2, c3, c4), (l1, l2, l3, l4) =>
    if l1 > c1 then true else if c1 > l1 then false
    else if l2 > c2 then true else if c2 > l2 then false
    else if l3 > c3 then true else if c3 > l3 then false
    else if l4 > c4 then true else if c4 > l4 then false
    else false

/-- Strict lexicographic order on four-component versions, as the spec words
it: the first non-equal component decides. -/
def lexLt4 (a b : Nat × Nat × Nat × Nat) : Bool :=
  a.1 < b.1 || (a.1 == b.1 &&
    (a.2.1 < b.2.1 || (a.2.1 == b.2.1 &&
      (a.2.2.1 < b.2.2.1 || (a.2.2.1 == b.2.2.1 && a.2.2.2 < b.2.2.2)))))

/-- The source comparison loop computes exactly the lexicographic order. -/
theorem compareTails_eq_lexLt4 (c l : Nat × Nat × Nat × Nat) :
    compareTails c l = lexLt4 c l := by
  obtain ⟨c1, c2, c3, c4⟩ := c
  obtain ⟨l1, l2, l3, l4⟩ := l
  simp only [compareTails, lexLt4]
  split_ifs <;> simp_all <;> omega

/-- Result shape of `firmwareVersionDb.isUpdateAvailable`. -/
structure AvailResult where
  available : Bool
  latestVersion : Option String
deriving DecidableEq, Repr

/-- `firmwareVersionDb.isUpdateAvailable` (db.ts lines 299-324): falsy current
firmware or an absent (or falsy) table entry yield no update; otherwise both
versions are matched against the four-part tail regex, failure of either match
falls back to plain string inequality, and success compares component-wise. -/
def isUpdateAvailable (table : List FirmwareVersionRow)
    (currentFirmware : Option String) : AvailResult :=
  match currentFirmware with
  | none => ⟨false, none⟩
  | some cf =>
    if cf == "" then ⟨false, none⟩
    else
      match getLatestForFirmware table cf with
      | none => ⟨false, none⟩
      | some lv =>
        if lv == "" then ⟨false, none⟩
        else
          match tailMatch cf, tailMatch lv with
          | some tc, some tl => ⟨compareTails tc tl, some lv⟩
          | some _, none => ⟨!(cf == lv), some lv⟩
          | none, _ => ⟨!(cf == lv), some lv⟩

/-- The version table of the worked spec example. -/
def rut9Table : List FirmwareVersionRow :=
  [⟨"RUT9", "RUT9_R_00.07.06.20", "2024-01-01 00:00:00"⟩]

/-- C8: the version policy extracts the four-part numeric tail from the
current firmware and the latest table version, falls back to string
inequality when either fails to match, and otherwise the first non-equal
component decides, update available exactly when latest exceeds current
lexicographically; on the worked examples, `RUT9_R_00.07.06.11` against
`RUT9_R_00.07.06.20` is available and `RUT9_R_00.07.07.00` is not. -/
theorem isUpdateAvailable_spec :
    (∀ table cf lv tc tl, ¬(cf = "") →
      getLatestForFirmware table cf = some lv → ¬(lv = "") →
      tailMatch cf = some tc → tailMatch lv = some tl →
      isUpdateAvailable table (some cf) = ⟨lexLt4 tc tl, some lv⟩) ∧
    (∀ table cf lv, ¬(cf = "") →
      getLatestForFirmware table cf = some lv → ¬(lv = "") →
      (tailMatch cf = none ∨ tailMatch lv = none) →
      isUpdateAvailable table (some cf) = ⟨!(cf == lv), some lv⟩) ∧
    isUpdateAvailable rut9Table (some "RUT9_R_00.07.06.11") =
      ⟨true, some "RUT9_R_00.07.06.20"⟩ ∧
    isUpdateAvailable rut9Table (some "RUT9_R_00.07.07.00") =
      ⟨false, some "RUT9_R_00.07.06.20"⟩ := by
  refine ⟨?_, ?_, by decide, by decide⟩
  · intro table cf lv tc tl hcf hlat hlv htc htl
    simp [isUpdateAvailable, hcf, hlat, hlv, htc, htl, compareTails_eq_lexLt4]
  · intro table cf lv hcf hlat hlv hfall
    rcases hfall with hfall | hfall
    · simp [isUpdateAvailable, hcf, hlat, hlv, hfall]
    · cases htc : tailMatch cf <;>
        simp [isUpdateAvailable, hcf, hlat, hlv, hfall, htc]

/-- Witness for C8 at the worked example table: the general tail-comparison
conjunct evaluated on the concrete strings. -/
theorem isUpdateAvailable_spec_witness :
    isUpdateAvailable rut9Table (some "RUT9_R_00.07.06.11") =
      ⟨lexLt4 (0, 7, 6, 11) (0, 7, 6, 20), some "RUT9_R_00.07.06.20"⟩ := by
  exact isUpdateAvailable_spec.1 rut9Table "RUT9_R_00.07.06.11"
    "RUT9_R_00.07.06.20" (0, 7, 6, 11) (0, 7, 6, 20) (by decide) (by decide)
    (by decide) (by decide) (by decide)

/-- Witness for C2 at a concrete oracle: the device answers only on the 20th
attempt, with the expected version, and the step succeeds. -/
theorem verifyUpdateAfterReboot_spec_witness :
    verifyUpdateAfterReboot
        (fun i => if i == 19 then some "RUT9_R_00.07.06.20" else none)
        (some "RUT9_R_00.07.06.20") 20 =
      { success := true, newVersion := some "RUT9_R_00.07.06.20",
        error := none } := by
  have h := (verifyUpdateAfterReboot_spec
      (fun i => if i == 19 then some "RUT9_R_00.07.06.20" else none)
      (some "RUT9_R_00.07.06.20")).2 19 (by decide) (by decide)
      (fun i hi => by interval_cases i <;> decide)
  simpa using h

end Teltonika

namespace Teltonika

/-- Event types of the `UpdateEvent` union (event-emitter module). -/
inductive EvType where
  | job_started
  | job_progress
  | job_completed
  | router_started
  | router_progress
  | router_completed
  | router_failed
  | batch_started
  | batch_completed
  | batch_waiting
deriving DecidableEq, Repr

/-- One emitted `UpdateEvent`, projected to the payload fields the verified
properties inspect (`message`, `timestamp` and the count fields are opaque
strings and numbers that no claim constrains). -/
structure Ev where
  type : EvType
  jobId : String
  routerId : Option String := none
  batchNumber : Option Nat := none
  waitTimeRemaining : Option Nat := none
  status : Option String := none
deriving DecidableEq, Repr

/-- The `job_started` event of `processBatchUpdate`. -/
def jobStartedEv (jid : String) : Ev :=
  { type := .job_started, jobId := jid }

/-- The per-batch `job_progress` event of `processBatchUpdate`. -/
def jobProgressEv (jid : String) : Ev :=
  { type := .job_progress, jobId := jid }

/-- A `job_completed` event carrying its `status` payload field. -/
def jobCompletedEv (jid st : String) : Ev :=
  { type := .job_completed, jobId := jid, status := some st }

/-- The `batch_started` event with its one-based batch number. -/
def batchStartedEv (jid : String) (b : Nat) : Ev :=
  { type := .batch_started, jobId := jid, batchNumber := some b }

/-- The `batch_completed` event with its one-based batch number. -/
def batchCompletedEv (jid : String) (b : Nat) : Ev :=
  { type := .batch_completed, jobId := jid, batchNumber := some b }

/-- One `batch_waiting` countdown event: `remaining` minutes left before the
next batch `b` starts. -/
def batchWaitingEv (jid : String) (remaining b : Nat) : Ev :=
  { type := .batch_waiting, jobId := jid,
    waitTimeRemaining := some remaining, batchNumber := some b }

/-- The `router_started` event of one per-router pipeline. -/
def routerStartedEv (jid rid : String) : Ev :=
  { type := .router_started, jobId := jid, routerId := some rid }

/-- A `router_progress` event with its `status` payload
(`downloading` or `rebooting`). -/
def routerProgressEv (jid rid st : String) : Ev :=
  { type := .router_progress, jobId := jid, routerId := some rid,
    status := some st }

/-- The `router_completed` event of a successful pipeline. -/
def routerCompletedEv (jid rid : String) : Ev :=
  { type := .router_completed, jobId := jid, routerId := some rid }

/-- The `router_failed` event of a failed pipeline. -/
def routerFailedEv (jid rid : String) : Ev :=
  { type := .router_failed, jobId := jid, routerId := some rid }

/-- Global credentials as returned by `settingsDb.getGlobalCredentials`. -/
structure Creds where
  username : String
  password : String
deriving DecidableEq, Repr

/-- `settingsDb.get`: value of a settings key, `null` when absent. -/
def settingsGet (s : DbState) (k : String) : Option String :=
  (s.settings.find? fun kv => kv.1 == k).map fun kv => kv.2

/-- `settingsDb.getGlobalCredentials`: both keys must be truthy. -/
def getGlobalCredentials (s : DbState) : Option Creds :=
  match settingsGet s "global_username", settingsGet s "global_password" with
  | some us, some ps =>
    if !(us == "") && !(ps == "") then some ⟨us, ps⟩ else none
  | _, _ => none

/-- `routerDb.getById`: primary-key lookup. -/
def routerGetById (s : DbState) (id : String) : Option RouterRow :=
  s.routers.find? fun r => r.id == id

/-- `routerDb.getByStatus`: `WHERE status = ?`. -/
def routerGetByStatus (s : DbState) (st : String) : List RouterRow :=
  s.routers.filter fun r => r.status == st

/-- `routerDb.updateStatus`: set `status` and `updated_at` on every row with
the given id. -/
def routerUpdateStatus (id st now : String) (s : DbState) : DbState :=
  { s with routers := s.routers.map fun r =>
      if r.id == id then { r with status := st, updated_at := now } else r }

/-- `routerDb.updateFirmwareInfo`: set firmware columns, `last_check`,
`status` and `updated_at` on every row with the given id. -/
def routerUpdateFirmwareInfo (id : String) (current available : Option String)
    (st now : String) (s : DbState) : DbState :=
  { s with routers := s.routers.map fun r =>
      if r.id == id then
        { r with
          current_firmware := current, available_firmware := available
          last_check := some now, status := st, updated_at := now }
      else r }

/-- `updateHistoryDb.insert`. -/
def historyInsert (h : HistoryRow) (s : DbState) : DbState :=
  { s with update_history := s.update_history ++ [h] }

/-- `updateHistoryDb.update`: apply the partial update `f` (the fields the
call site lists) to every row with the given id. -/
def historySet (id : String) (f : HistoryRow → HistoryRow) (s : DbState) :
    DbState :=
  { s with update_history := s.update_history.map fun h =>
      if h.id == id then f h else h }

/-- `batchJobDb.insert`. -/
def jobInsert (j : JobRow) (s : DbState) : DbState :=
  { s with batch_jobs := s.batch_jobs ++ [j] }

/-- `batchJobDb.update`: apply the partial update `f` to every row with the
given id. -/
def jobSet (id : String) (f : JobRow → JobRow) (s : DbState) : DbState :=
  { s with batch_jobs := s.batch_jobs.map fun j =>
      if j.id == id then f j else j }

/-- `batchJobDb.getActive`: the most recent job whose status is `pending` or
`running` (`ORDER BY created_at DESC LIMIT 1`; on equal timestamps the model
keeps the earlier row). -/
def jobGetActive (s : DbState) : Option JobRow :=
  (s.batch_jobs.filter fun j =>
      j.status == "pending" || j.status == "running").foldl
    (fun acc j =>
      match acc with
      | none => some j
      | some a => if a.created_at < j.created_at then some j else some a)
    none

/-- Whole-process state: the durable store, the events emitted on the bus so
far (in emission order), and the in-memory `activeBatches` abort-flag map. -/
structure AppState where
  db : DbState
  events : List Ev
  activeBatches : List (String × Bool)

end Teltonika

namespace Teltonika

/-- Candidate routers the update `POST` handler resolves: explicit ids (when a
nonempty list is sent, skipping missing ones) or all `update_available`
routers, plus the `error` and `unreachable` ones when `includeErrors`. -/
def selectCandidates (s : DbState) (routerIds : Option (List String))
    (includeErrors : Bool) : List RouterRow :=
  let byStatus :=
    routerGetByStatus s "update_available" ++
      (if includeErrors then
        routerGetByStatus s "error" ++ routerGetByStatus s "unreachable"
      else [])
  match routerIds with
  | some ids => if ids.isEmpty then byStatus else ids.filterMap (routerGetById s)
  | none => byStatus

/-- Outcome of the update `POST` handler. -/
inductive StartResult where
  | noRouters
  | conflict (jobId : String)
  | started (jobId : String)
deriving DecidableEq, Repr

/-- The update `POST` handler (batch update route): resolve candidates, reject
an empty set, reject when an active job exists (reporting its id), otherwise
persist a `pending` job row, register the abort flag and spawn the background
batch process (whose behaviour is modelled by `processRouter` and `jobTrace`).
`newJobId` is the generated UUID and `now` the observed timestamp. -/
def startRollout (a : AppState) (routerIds : Option (List String))
    (batchSize : Nat) (includeErrors : Bool) (newJobId now : String) :
    AppState × StartResult :=
  let routers := selectCandidates a.db routerIds includeErrors
  if routers.isEmpty then (a, .noRouters)
  else
    match jobGetActive a.db with
    | some j => (a, .conflict j.id)
    | none =>
      let db := jobInsert
        { id := newJobId, status := "pending", batch_size := batchSize
          total_routers := routers.length, completed_routers := 0
          failed_routers := 0, created_at := now, started_at := none
          completed_at := none } a.db
      ({ a with
          db := db
          activeBatches := a.activeBatches ++ [(newJobId, false)] },
        .started newJobId)

/-- The update `DELETE` handler (batch update route): with a job id it sets
the abort flag when an `activeBatches` entry exists, unconditionally writes
status `cancelled` on the job row, emits a `job_completed` event with status
`cancelled`, and reports success; without a job id it fails with no effect. -/
def cancelJob (a : AppState) (jobId : Option String) : AppState × Bool :=
  match jobId with
  | none => (a, false)
  | some jid =>
    ({ a with
        db := jobSet jid (fun j => { j with status := "cancelled" }) a.db
        events := a.events ++ [jobCompletedEv jid "cancelled"]
        activeBatches := a.activeBatches.map fun kv =>
          if kv.1 == jid then (kv.1, true) else kv },
      true)

/-- One per-router pipeline of `processBatchUpdate` (batch update route),
projected to its durable effects: insert the `running` history row, mark the
router `updating`, resolve effective credentials, run `performUpdate`, then
the 20-attempt reboot verification, and write the terminal history and router
rows.  `hid` is the generated history UUID; every timestamp the attempt reads
is modelled by `now`.  The returned flag is the `{ success }` value the batch
accumulates. -/
def processRouter (s : DbState) (gc : Option Creds) (r : RouterRow)
    (env : DeviceEnv) (polls : Nat → Option String) (hid now : String) :
    DbState × Bool :=
  let username := jsOr r.username (gc.map fun c => c.username)
  let password := jsOr r.password (gc.map fun c => c.password)
  let s1 := historyInsert
    { id := hid, router_id := r.id, firmware_before := r.current_firmware
      firmware_after := none, status := "running", error_message := none
      started_at := some now, completed_at := none } s
  let s2 := routerUpdateStatus r.id "updating" now s1
  if !jsTruthy username || !jsTruthy password then
    let s3 := historySet hid (fun h =>
      { h with
        status := "failed", error_message := some "No credentials available"
        completed_at := some now }) s2
    (routerUpdateStatus r.id "error" now s3, false)
  else
    let result := performUpdate env
    if !result.success then
      let s3 := historySet hid (fun h =>
        { h with
          status := "failed"
          error_message := jsOr result.error (some "Update failed")
          completed_at := some now }) s2
      (routerUpdateStatus r.id "error" now s3, false)
    else
      let verification := verifyUpdateAfterReboot polls r.available_firmware 20
      if verification.success then
        let s3 := historySet hid (fun h =>
          { h with
            status := "success", firmware_after := verification.newVersion
            completed_at := some now }) s2
        (routerUpdateFirmwareInfo r.id verification.newVersion none
          "up_to_date" now s3, true)
      else
        let s3 := historySet hid (fun h =>
          { h with
            status := "failed"
            error_message := jsOr verification.error (some "Verification failed")
            completed_at := some now }) s2
        (routerUpdateStatus r.id "error" now s3, false)

end Teltonika

namespace Teltonika

/-- A conditional row update whose guard holds nowhere leaves a table as it
was. -/
theorem map_if_id {α : Type} (l : List α) (p : α → Bool) (f : α → α)
    (h : ∀ x ∈ l, p x = false) :
    (l.map fun x => if p x then f x else x) = l := by
  induction l with
  | nil => rfl
  | cons a t ih =>
    have ha := h a (List.mem_cons_self a t)
    have ht := ih fun x hx => h x (List.mem_cons_of_mem a hx)
    simp [ha, ht]

/-- C6: starting a rollout with an empty candidate set, or while `getActive`
returns a pending or running job, fails — reporting the active job id in the
latter case — and leaves the whole state unchanged: no job row inserted, no
abort flag registered, no event emitted. -/
theorem startRollout_rejections (a : AppState)
    (routerIds : Option (List String)) (bs : Nat) (ie : Bool)
    (njid now : String) :
    ((selectCandidates a.db routerIds ie).isEmpty = true →
      startRollout a routerIds bs ie njid now = (a, .noRouters)) ∧
    (∀ j, (selectCandidates a.db routerIds ie).isEmpty = false →
      jobGetActive a.db = some j →
      startRollout a routerIds bs ie njid now = (a, .conflict j.id)) := by
  constructor
  · intro h
    simp [startRollout, h]
  · intro j hne hact
    simp [startRollout, hne, hact]

/-- One candidate router for the conflict scenario. -/
def candidateRouter : RouterRow :=
  { staleRouter with status := "update_available" }

/-- State with one candidate router and one running job. -/
def conflictApp : AppState :=
  { db := { schemaReady := true, routers := [candidateRouter]
            update_history := [], batch_jobs := [staleJob]
            firmware_versions := [], settings := [] }
    events := [], activeBatches := [] }

/-- Witness for C6: with a running job `j1` present, starting a rollout over
the nonempty candidate set is rejected with that job id and changes nothing. -/
theorem startRollout_rejections_witness :
    startRollout conflictApp none 5 false "j2" "t1" =
      (conflictApp, .conflict "j1") := by
  exact (startRollout_rejections conflictApp none 5 false "j2" "t1").2
    staleJob (by decide) (by decide)

/-- C10: cancelling by any job id always reports success, writes status
`cancelled` on every job row with that id (overwriting even a `completed`
one), is a no-op on the jobs table when the id names no job, and in every
case emits a `job_completed` event with status `cancelled`. -/
theorem cancelJob_spec (a : AppState) (jid : String) :
    (cancelJob a (some jid)).2 = true ∧
    (∀ j ∈ (cancelJob a (some jid)).1.db.batch_jobs, j.id = jid →
      j.status = "cancelled") ∧
    (∀ j ∈ a.db.batch_jobs, j.id = jid → j.status = "completed" →
      { j with status := "cancelled" } ∈
        (cancelJob a (some jid)).1.db.batch_jobs) ∧
    ((∀ j ∈ a.db.batch_jobs, ¬(j.id = jid)) →
      (cancelJob a (some jid)).1.db.batch_jobs = a.db.batch_jobs) ∧
    (cancelJob a (some jid)).1.events
      = a.events ++ [jobCompletedEv jid "cancelled"] := by
  refine ⟨rfl, ?_, ?_, ?_, rfl⟩
  · intro j hj hidj
    simp only [cancelJob, jobSet] at hj
    rcases List.mem_map.mp hj with ⟨j0, hj0, heq⟩
    by_cases hb : j0.id = jid
    · have : (if (j0.id == jid) then ({ j0 with status := "cancelled" })
          else j0) = { j0 with status := "cancelled" } := by simp [hb]
      rw [this] at heq
      rw [← heq]
    · have : (if (j0.id == jid) then ({ j0 with status := "cancelled" })
          else j0) = j0 := by simp [hb]
      rw [this] at heq
      subst heq
      exact absurd hidj hb
  · intro j hj hidj _
    have hmem := List.mem_map_of_mem
      (fun j : JobRow => if j.id == jid then { j with status := "cancelled" }
        else j) hj
    simpa [cancelJob, jobSet, hidj] using hmem
  · intro hnone
    simp only [cancelJob, jobSet]
    apply map_if_id
    intro x hx
    simp [hnone x hx]

/-- A job that already finished. -/
def doneJob : JobRow :=
  { id := "j1", status := "completed", batch_size := 5, total_routers := 1
    completed_routers := 1, failed_routers := 0, created_at := "t0"
    started_at := some "t0", completed_at := some "t1" }

/-- State holding only the finished job. -/
def doneApp : AppState :=
  { db := { schemaReady := true, routers := [], update_history := []
            batch_jobs := [doneJob], firmware_versions := [], settings := [] }
    events := [], activeBatches := [] }

/-- Witness for C10: cancelling the already-completed job `j1` overwrites its
status to `cancelled`. -/
theorem cancelJob_spec_witness :
    ({ doneJob with status := "cancelled" }) ∈
      (cancelJob doneApp (some "j1")).1.db.batch_jobs := by
  exact (cancelJob_spec doneApp "j1").2.2.1 doneJob
    (List.mem_singleton.mpr rfl) rfl rfl

/-- A successful verification carries a truthy new version. -/
theorem verifyLoop_success_newVersion (polls : Nat → Option String)
    (expected : Option String) :
    ∀ fuel i, (verifyLoop polls expected i fuel).success = true →
      ∃ v, (verifyLoop polls expected i fuel).newVersion = some v ∧
        ¬(v = "") := by
  intro fuel
  induction fuel with
  | zero => intro i h; simp [verifyLoop] at h
  | succ n ih =>
    intro i h
    by_cases ht : jsTruthy (polls i) = true
    · cases hp : polls i with
      | none => rw [hp] at ht; simp [jsTruthy] at ht
      | some v =>
        rw [hp] at ht
        simp only [jsTruthy] at ht
        refine ⟨v, ?_, ?_⟩
        · simp [verifyLoop, hp, jsTruthy, ht]
        · intro hv
          subst hv
          simp at ht
    · have hf : jsTruthy (polls i) = false := by
        cases hx : jsTruthy (polls i)
        · rfl
        · exact absurd hx ht
      have hstep : verifyLoop polls expected i (n + 1) =
          verifyLoop polls expected (i + 1) n := by
        simp [verifyLoop, hf]
      rw [hstep] at h ⊢
      exact ih (i + 1) h

end Teltonika

namespace Teltonika

/-- C5: whenever a per-router attempt succeeds, its history row is set to
status `success` with `firmware_after` equal to the newly read (truthy)
version and `completed_at` set, and the router row is set to
`current_firmware` equal to that version, `available_firmware` cleared and
status `up_to_date`. -/
theorem processRouter_success_writes (s : DbState) (gc : Option Creds)
    (r : RouterRow) (env : DeviceEnv) (polls : Nat → Option String)
    (hid now : String)
    (hok : (processRouter s gc r env polls hid now).2 = true) :
    (∃ v, (verifyUpdateAfterReboot polls r.available_firmware 20).newVersion
        = some v ∧ ¬(v = "")) ∧
    (∃ h ∈ (processRouter s gc r env polls hid now).1.update_history,
      h.id = hid) ∧
    (∀ h ∈ (processRouter s gc r env polls hid now).1.update_history,
      h.id = hid →
      h.status = "success" ∧
      h.firmware_after
        = (verifyUpdateAfterReboot polls r.available_firmware 20).newVersion ∧
      h.completed_at = some now) ∧
    (∀ rr ∈ (processRouter s gc r env polls hid now).1.routers, rr.id = r.id →
      rr.current_firmware
        = (verifyUpdateAfterReboot polls r.available_firmware 20).newVersion ∧
      rr.available_firmware = none ∧
      rr.status = "up_to_date") := by
  by_cases hcred : (!jsTruthy (jsOr r.username (gc.map fun c => c.username))
      || !jsTruthy (jsOr r.password (gc.map fun c => c.password))) = true
  · exfalso
    simp [processRouter, hcred] at hok
  · have hcredf : (!jsTruthy (jsOr r.username (gc.map fun c => c.username))
        || !jsTruthy (jsOr r.password (gc.map fun c => c.password))) = false :=
      Bool.eq_false_iff.mpr hcred
    by_cases hres : (performUpdate env).success = true
    · by_cases hver :
        (verifyUpdateAfterReboot polls r.available_firmware 20).success = true
      · have hstate : processRouter s gc r env polls hid now =
            (routerUpdateFirmwareInfo r.id
              (verifyUpdateAfterReboot polls r.available_firmware 20).newVersion
              none "up_to_date" now
              (historySet hid (fun h =>
                { h with
                  status := "success"
                  firmware_after :=
                    (verifyUpdateAfterReboot polls r.available_firmware 20).newVersion
                  completed_at := some now })
                (routerUpdateStatus r.id "updating" now
                  (historyInsert
                    { id := hid, router_id := r.id
                      firmware_before := r.current_firmware
                      firmware_after := none, status := "running"
                      error_message := none, started_at := some now
                      completed_at := none } s))), true) := by
          simp [processRouter, hcredf, hres, hver]
        refine ⟨?_, ?_, ?_, ?_⟩
        · exact verifyLoop_success_newVersion polls r.available_firmware 20 0 hver
        · rw [hstate]
          simp only [routerUpdateFirmwareInfo, historySet, routerUpdateStatus,
            historyInsert]
          refine ⟨(fun h => if h.id == hid then
              { h with
                status := "success"
                firmware_after :=
                  (verifyUpdateAfterReboot polls r.available_firmware 20).newVersion
                completed_at := some now } else h)
            { id := hid, router_id := r.id
              firmware_before := r.current_firmware
              firmware_after := none, status := "running"
              error_message := none, started_at := some now
              completed_at := none }, ?_, ?_⟩
          · exact List.mem_map_of_mem _
              (List.mem_append_right _ (List.mem_singleton.mpr rfl))
          · simp
        · intro h hm hidh
          rw [hstate] at hm
          simp only [routerUpdateFirmwareInfo, historySet, routerUpdateStatus,
            historyInsert] at hm
          rcases List.mem_map.mp hm with ⟨h0, _, heq⟩
          by_cases hb : h0.id = hid
          · rw [if_pos (by simp [hb])] at heq
            rw [← heq]
            exact ⟨rfl, rfl, rfl⟩
          · rw [if_neg (by simp [hb])] at heq
            subst heq
            exact absurd hidh hb
        · intro rr hm hidr
          rw [hstate] at hm
          simp only [routerUpdateFirmwareInfo, historySet, routerUpdateStatus,
            historyInsert, List.map_map] at hm
          rcases List.mem_map.mp hm with ⟨r0, _, heq⟩
          simp only [Function.comp] at heq
          by_cases hb : r0.id = r.id
          · rw [if_pos (by simp [hb])] at heq
            rw [if_pos (by simp [hb])] at heq
            rw [← heq]
            exact ⟨rfl, rfl, rfl⟩
          · rw [if_neg (by simp [hb])] at heq
            rw [if_neg (by simp [hb])] at heq
            subst heq
            exact absurd hidr hb
      · exfalso
        have hverf := Bool.eq_false_iff.mpr hver
        simp [processRouter, hcredf, hres, hverf] at hok
    · exfalso
      have hresf := Bool.eq_false_iff.mpr hres
      simp [processRouter, hcredf, hresf] at hok

/-- Router subjected to the concrete successful attempt. -/
def happyRouter : RouterRow :=
  { id := "r1", device_name := "Router001", ip_address := "10.0.0.1"
    username := none, password := none
    current_firmware := some "RUT9_R_00.07.06.11"
    available_firmware := some "RUT9_R_00.07.06.20", last_check := none
    status := "update_available", created_at := "t0", updated_at := "t0" }

/-- Store holding only that router. -/
def happyDb : DbState :=
  { schemaReady := true, routers := [happyRouter], update_history := []
    batch_jobs := [], firmware_versions := [], settings := [] }

/-- Witness for C5 at a concrete successful attempt (global credentials, a
session-closed flash, every reboot poll reading the expected version): the
attempt records a history row with the generated id. -/
theorem processRouter_success_writes_witness :
    ∃ h ∈ (processRouter happyDb (some ⟨"root", "pw"⟩) happyRouter
        flashClosedEnv (fun _ => some "RUT9_R_00.07.06.20")
        "h1" "t1").1.update_history, h.id = "h1" := by
  exact (processRouter_success_writes happyDb (some ⟨"root", "pw"⟩) happyRouter
    flashClosedEnv (fun _ => some "RUT9_R_00.07.06.20") "h1" "t1"
    (by decide)).2.1

end Teltonika

namespace Teltonika

/-- The events one per-router pipeline of `processBatchUpdate` emits, in
emission order, derived from the same branch structure as `processRouter`:
`router_started` always; `router_failed` for missing credentials; otherwise
`router_progress(downloading)`, then `router_failed` when `performUpdate`
fails, else `router_progress(rebooting)` followed by `router_completed` or
`router_failed` according to the reboot verification. -/
def routerTrace (jid : String) (gc : Option Creds) (r : RouterRow)
    (env : DeviceEnv) (polls : Nat → Option String) : List Ev :=
  let username := jsOr r.username (gc.map fun c => c.username)
  let password := jsOr r.password (gc.map fun c => c.password)
  routerStartedEv jid r.id ::
    (if !jsTruthy username || !jsTruthy password then
      [routerFailedEv jid r.id]
    else
      routerProgressEv jid r.id "downloading" ::
        (if !(performUpdate env).success then
          [routerFailedEv jid r.id]
        else
          routerProgressEv jid r.id "rebooting" ::
            (if (verifyUpdateAfterReboot polls r.available_firmware 20).success
            then [routerCompletedEv jid r.id]
            else [routerFailedEv jid r.id])))

/-- The inter-batch pause countdown (batch update route lines 709-725): for
`remaining` from `n` down to `1`, one `batch_waiting` event naming the next
batch. -/
def countdown (jid : String) (n nextBatch : Nat) : List Ev :=
  (List.range n).map fun k => batchWaitingEv jid (n - k) nextBatch

/-- The batch loop of `processBatchUpdate`, as the list of events it emits
when no cancel request arrives: each window of `bs` routers contributes
`batch_started`, the per-router events of the window (the model serializes
the concurrent pipelines in list order; the bracketing properties proved
below hold in any interleaving because the loop awaits the whole window
before emitting `batch_completed`), `batch_completed`, `job_progress`, and —
when routers remain — the pause countdown.  The first argument of the final
group is fuel bounding the recursion; callers pass the router-list length,
which suffices for every positive `bs` (with `batchSize = 0` the source loop
itself never terminates). -/
def batchLoop (jid : String) (gc : Option Creds) (envOf : String → DeviceEnv)
    (pollsOf : String → Nat → Option String) (bs waitMinutes : Nat) :
    Nat → Nat → List RouterRow → List Ev
  | _, _, [] => []
  | 0, _, _ :: _ => []
  | fuel + 1, bNum, x :: xs =>
    let cur := (x :: xs).take bs
    let rest := (x :: xs).drop bs
    batchStartedEv jid bNum ::
      ((cur.map fun r =>
          routerTrace jid gc r (envOf r.id) (pollsOf r.id)).join ++
        [batchCompletedEv jid bNum, jobProgressEv jid] ++
        (if rest.isEmpty then [] else countdown jid waitMinutes (bNum + 1)) ++
        batchLoop jid gc envOf pollsOf bs waitMinutes fuel (bNum + 1) rest)

/-- The full event trace of one uncancelled run of `processBatchUpdate`:
`job_started`, the batch loop, and the final `job_completed` with status
`completed`. -/
def jobTrace (jid : String) (gc : Option Creds) (envOf : String → DeviceEnv)
    (pollsOf : String → Nat → Option String) (bs waitMinutes : Nat)
    (routers : List RouterRow) : List Ev :=
  jobStartedEv jid ::
    (batchLoop jid gc envOf pollsOf bs waitMinutes routers.length 1 routers ++
      [jobCompletedEv jid "completed"])

/-- Number of windows the loop processes: `⌈len / bs⌉`. -/
def numBatches (len bs : Nat) : Nat := (len + bs - 1) / bs

/-- The routers of the zero-based window `b`. -/
def batchRouters (routers : List RouterRow) (bs b : Nat) : List RouterRow :=
  (routers.drop (b * bs)).take bs

/-- The four per-router event kinds. -/
def isPerRouterEv (e : Ev) : Bool :=
  e.type == .router_started || e.type == .router_progress ||
    e.type == .router_completed || e.type == .router_failed

theorem routerTrace_fields (jid : String) (gc : Option Creds) (r : RouterRow)
    (env : DeviceEnv) (polls : Nat → Option String) :
    ∀ e ∈ routerTrace jid gc r env polls,
      isPerRouterEv e = true ∧ e.routerId = some r.id := by
  intro e he
  have hcases : e = routerStartedEv jid r.id ∨
      e = routerProgressEv jid r.id "downloading" ∨
      e = routerProgressEv jid r.id "rebooting" ∨
      e = routerCompletedEv jid r.id ∨
      e = routerFailedEv jid r.id := by
    unfold routerTrace at he
    split_ifs at he <;> simp at he <;> (try split_ifs at he) <;>
      (try simp at he) <;> tauto
  rcases hcases with rfl | rfl | rfl | rfl | rfl <;>
    simp [isPerRouterEv, routerStartedEv, routerProgressEv, routerCompletedEv,
      routerFailedEv]

theorem countdown_fields (jid : String) (n b : Nat) :
    ∀ e ∈ countdown jid n b, e.type = EvType.batch_waiting := by
  intro e he
  rcases List.mem_map.mp he with ⟨k, _, rfl⟩
  rfl

theorem countdown_length (jid : String) (n b : Nat) :
    (countdown jid n b).length = n := by
  simp [countdown]

theorem countdown_values (jid : String) (n b : Nat) :
    (countdown jid n b).map (fun e => e.waitTimeRemaining)
      = (List.range n).map fun k => some (n - k) := by
  simp [countdown, batchWaitingEv]

theorem perRouter_not_waiting {e : Ev} (h : isPerRouterEv e = true) :
    (e.type == EvType.batch_waiting) = false := by
  rcases e with ⟨t, _, _, _, _, _⟩
  cases t <;> simp_all [isPerRouterEv]

theorem perRouter_not_jobCompleted {e : Ev} (h : isPerRouterEv e = true) :
    (e.type == EvType.job_completed) = false := by
  rcases e with ⟨t, _, _, _, _, _⟩
  cases t <;> simp_all [isPerRouterEv]

theorem routerTrace_filter_waiting (jid : String) (gc : Option Creds)
    (r : RouterRow) (env : DeviceEnv) (polls : Nat → Option String) :
    (routerTrace jid gc r env polls).filter
      (fun e => e.type == EvType.batch_waiting) = [] := by
  rw [List.filter_eq_nil]
  intro e he
  have := perRouter_not_waiting (routerTrace_fields jid gc r env polls e he).1
  simp [this]

theorem countdown_filter_waiting (jid : String) (n b : Nat) :
    (countdown jid n b).filter (fun e => e.type == EvType.batch_waiting)
      = countdown jid n b := by
  rw [List.filter_eq_self]
  intro e he
  simp [countdown_fields jid n b e he]

end Teltonika

namespace Teltonika

theorem batchStarted_not_waiting (jid : String) (b : Nat) :
    ((batchStartedEv jid b).type == EvType.batch_waiting) = false := rfl

theorem batchCompleted_not_waiting (jid : String) (b : Nat) :
    ((batchCompletedEv jid b).type == EvType.batch_waiting) = false := rfl

theorem jobProgress_not_waiting (jid : String) :
    ((jobProgressEv jid).type == EvType.batch_waiting) = false := rfl

theorem numBatches_zero (bs : Nat) (hbs : 0 < bs) : numBatches 0 bs = 0 := by
  unfold numBatches
  apply Nat.div_eq_of_lt
  omega

theorem numBatches_of_le (len bs : Nat) (h1 : 1 ≤ len) (h2 : len ≤ bs) :
    numBatches len bs = 1 := by
  unfold numBatches
  apply Nat.div_eq_of_lt_le <;> omega

theorem numBatches_pos (len bs : Nat) (h1 : 1 ≤ len) (hbs : 0 < bs) :
    1 ≤ numBatches len bs := by
  unfold numBatches
  rw [Nat.le_div_iff_mul_le hbs]
  omega

theorem numBatches_of_gt (len bs : Nat) (hbs : 0 < bs) (h : bs < len) :
    numBatches len bs = numBatches (len - bs) bs + 1 := by
  unfold numBatches
  have e1 : len + bs - 1 = (len - 1) + bs := by omega
  have e2 : len - bs + bs - 1 = len - 1 := by omega
  rw [e1, Nat.add_div_right _ hbs, e2]

/-- Filtering for `batch_waiting` skips one whole window block. -/
theorem filter_waiting_block (jid : String) (gc : Option Creds)
    (envOf : String → DeviceEnv) (pollsOf : String → Nat → Option String)
    (bNum : Nat) (cur : List RouterRow) (tail : List Ev) :
    (batchStartedEv jid bNum ::
        ((cur.map fun r =>
            routerTrace jid gc r (envOf r.id) (pollsOf r.id)).flatten ++
          [batchCompletedEv jid bNum, jobProgressEv jid] ++ tail)).filter
      (fun e => e.type == EvType.batch_waiting)
      = tail.filter (fun e => e.type == EvType.batch_waiting) := by
  have hjoin : ((cur.map fun r =>
      routerTrace jid gc r (envOf r.id) (pollsOf r.id)).flatten).filter
        (fun e => e.type == EvType.batch_waiting) = [] := by
    rw [List.filter_eq_nil_iff]
    intro e he
    rcases List.mem_flatten.mp he with ⟨li, hli, hei⟩
    rcases List.mem_map.mp hli with ⟨r, _, rfl⟩
    have := perRouter_not_waiting
      (routerTrace_fields jid gc r (envOf r.id) (pollsOf r.id) e hei).1
    simp [this]
  rw [List.filter_cons, List.filter_append, List.filter_append, hjoin]
  simp [batchStartedEv, batchCompletedEv, jobProgressEv]

/-- The `batch_waiting` events of the uncancelled batch loop: one full
countdown per window except the last. -/
theorem batchLoop_filter_waiting (jid : String) (gc : Option Creds)
    (envOf : String → DeviceEnv) (pollsOf : String → Nat → Option String)
    (bs N : Nat) (hbs : 0 < bs) :
    ∀ fuel l bNum, l.length ≤ fuel →
      (batchLoop jid gc envOf pollsOf bs N fuel bNum l).filter
          (fun e => e.type == EvType.batch_waiting)
        = ((List.range (numBatches l.length bs - 1)).map
            fun b => countdown jid N (bNum + 1 + b)).flatten := by
  intro fuel
  induction fuel with
  | zero =>
    intro l bNum hlen
    have hnil : l = [] := List.eq_nil_of_length_eq_zero (Nat.le_zero.mp hlen)
    subst hnil
    simp [batchLoop, numBatches_zero bs hbs]
  | succ n ih =>
    intro l bNum hlen
    cases l with
    | nil => simp [batchLoop, numBatches_zero bs hbs]
    | cons x xs =>
      have hstep : batchLoop jid gc envOf pollsOf bs N (n + 1) bNum (x :: xs) =
          batchStartedEv jid bNum ::
            ((((x :: xs).take bs).map fun r =>
                routerTrace jid gc r (envOf r.id) (pollsOf r.id)).flatten ++
              [batchCompletedEv jid bNum, jobProgressEv jid] ++
              ((if ((x :: xs).drop bs).isEmpty then []
                else countdown jid N (bNum + 1)) ++
                batchLoop jid gc envOf pollsOf bs N n (bNum + 1)
                  ((x :: xs).drop bs))) := by
        simp [batchLoop, List.append_assoc]
      by_cases hrest : ((x :: xs).drop bs).isEmpty = true
      · have hrnil : (x :: xs).drop bs = [] := List.isEmpty_iff.mp hrest
        have hlenle : (x :: xs).length ≤ bs := by
          have := List.drop_eq_nil_iff_le.mp hrnil
          omega
        have hnb : numBatches (x :: xs).length bs = 1 :=
          numBatches_of_le _ bs (by simp) hlenle
        rw [hstep, if_pos hrest, filter_waiting_block, hrnil, hnb]
        simp [batchLoop]
      · have hrne : (x :: xs).drop bs ≠ [] := by
          intro hc
          rw [hc] at hrest
          simp at hrest
        have hlengt : bs < (x :: xs).length := by
          by_contra hc
          exact hrne (List.drop_eq_nil_iff_le.mpr (by omega))
        have hrlen : ((x :: xs).drop bs).length ≤ n := by
          rw [List.length_drop]
          simp only [List.length_cons] at hlen ⊢
          omega
        have hih := ih ((x :: xs).drop bs) (bNum + 1) hrlen
        rw [hstep, if_neg hrest, filter_waiting_block, List.filter_append,
          countdown_filter_waiting, hih]
        have hm : 1 ≤ numBatches ((x :: xs).drop bs).length bs := by
          apply numBatches_pos _ bs _ hbs
          have := List.length_pos.mpr hrne
          omega
        have hnb : numBatches (x :: xs).length bs - 1 =
            (numBatches ((x :: xs).drop bs).length bs - 1) + 1 := by
          rw [List.length_drop, numBatches_of_gt _ bs hbs hlengt]
          rw [List.length_drop] at hm
          omega
        rw [hnb, List.range_succ_eq_map]
        simp only [List.map_cons, List.flatten_cons, List.map_map,
          Function.comp]
        have hhead : bNum + 1 + 0 = bNum + 1 := by omega
        rw [hhead]
        have htail :
            ((List.range (numBatches ((x :: xs).drop bs).length bs - 1)).map
                ((fun b => countdown jid N (bNum + 1 + b)) ∘ Nat.succ))
              = ((List.range
                  (numBatches ((x :: xs).drop bs).length bs - 1)).map
                fun b => countdown jid N (bNum + 1 + 1 + b)) := by
          apply List.map_congr_left
          intro b _
          simp only [Function.comp_apply]
          congr 1
          omega
        rw [htail]

/-- C7: between consecutive batches the uncancelled run emits exactly one
countdown of `batch_wait_minutes = N` events carrying `waitTimeRemaining`
values `N, N-1, …, 1` (one countdown per window except the last); with
`N = 0`, or when only one window exists (`routers.length ≤ bs`, covering the
last-batch case), no `batch_waiting` event at all is emitted. -/
theorem jobTrace_batch_waiting (jid : String) (gc : Option Creds)
    (envOf : String → DeviceEnv) (pollsOf : String → Nat → Option String)
    (bs N : Nat) (routers : List RouterRow) (hbs : 0 < bs) :
    ((jobTrace jid gc envOf pollsOf bs N routers).filter
        (fun e => e.type == EvType.batch_waiting)
      = ((List.range (numBatches routers.length bs - 1)).map
          fun b => countdown jid N (b + 2)).flatten) ∧
    (∀ b, (countdown jid N b).length = N) ∧
    (∀ b, (countdown jid N b).map (fun e => e.waitTimeRemaining)
      = (List.range N).map fun k => some (N - k)) ∧
    (N = 0 →
      (jobTrace jid gc envOf pollsOf bs N routers).filter
        (fun e => e.type == EvType.batch_waiting) = []) ∧
    (routers.length ≤ bs →
      (jobTrace jid gc envOf pollsOf bs N routers).filter
        (fun e => e.type == EvType.batch_waiting) = []) := by
  have hmain : (jobTrace jid gc envOf pollsOf bs N routers).filter
      (fun e => e.type == EvType.batch_waiting)
    = ((List.range (numBatches routers.length bs - 1)).map
        fun b => countdown jid N (b + 2)).flatten := by
    unfold jobTrace
    rw [List.filter_cons, List.filter_append]
    have h1 : ((jobStartedEv jid).type == EvType.batch_waiting) = false := rfl
    have h2 : ([jobCompletedEv jid "completed"].filter
        (fun e => e.type == EvType.batch_waiting)) = [] := rfl
    rw [h2, List.append_nil]
    simp only [h1, Bool.false_eq_true, if_false]
    rw [batchLoop_filter_waiting jid gc envOf pollsOf bs N hbs
      routers.length routers 1 (Nat.le_refl _)]
    apply congrArg
    apply List.map_congr_left
    intro b _
    congr 1
    omega
  refine ⟨hmain, countdown_length jid N, countdown_values jid N, ?_, ?_⟩
  · intro hN
    subst hN
    rw [hmain]
    simp [countdown]
  · intro hle
    rw [hmain]
    rcases Nat.eq_zero_or_pos routers.length with hz | hp
    · rw [hz, numBatches_zero bs hbs]
      simp
    · rw [numBatches_of_le _ bs hp hle]
      simp

end Teltonika

namespace Teltonika

/-- Concrete oracles for the witness runs: every device flashes with a
session-closed error and reports the expected version on every poll. -/
def envOfAll : String → DeviceEnv := fun _ => flashClosedEnv

/-- Poll oracle answering the expected version immediately. -/
def pollsOfAll : String → Nat → Option String :=
  fun _ _ => some "RUT9_R_00.07.06.20"

/-- Witness for C7 at a concrete run: one router, `batchSize 1` and
`batch_wait_minutes 2` — a pause countdown carries the values 2, 1. -/
theorem jobTrace_batch_waiting_witness :
    (countdown "job" 2 2).map (fun e => e.waitTimeRemaining)
      = [some 2, some 1] := by
  have h := (jobTrace_batch_waiting "job" none envOfAll pollsOfAll 1 2
    [happyRouter] (by decide)).2.2.1 2
  simpa using h

theorem not_perRouter_of_waiting {e : Ev}
    (h : e.type = EvType.batch_waiting) : isPerRouterEv e = false := by
  simp [isPerRouterEv, h]

/-- Every event the batch loop emits is not a `job_completed`, and every
per-router event among them carries the id of a router of the remaining
list. -/
theorem batchLoop_mem (jid : String) (gc : Option Creds)
    (envOf : String → DeviceEnv) (pollsOf : String → Nat → Option String)
    (bs N : Nat) :
    ∀ fuel bNum l, ∀ e ∈ batchLoop jid gc envOf pollsOf bs N fuel bNum l,
      (e.type == EvType.job_completed) = false ∧
      (isPerRouterEv e = true → ∃ r ∈ l, e.routerId = some r.id) := by
  intro fuel
  induction fuel with
  | zero =>
    intro bNum l e he
    cases l <;> simp [batchLoop] at he
  | succ n ih =>
    intro bNum l e he
    cases l with
    | nil => simp [batchLoop] at he
    | cons x xs =>
      have hstep : batchLoop jid gc envOf pollsOf bs N (n + 1) bNum (x :: xs) =
          batchStartedEv jid bNum ::
            ((((x :: xs).take bs).map fun r =>
                routerTrace jid gc r (envOf r.id) (pollsOf r.id)).flatten ++
              ([batchCompletedEv jid bNum, jobProgressEv jid] ++
                ((if ((x :: xs).drop bs).isEmpty then []
                  else countdown jid N (bNum + 1)) ++
                  batchLoop jid gc envOf pollsOf bs N n (bNum + 1)
                    ((x :: xs).drop bs)))) := by
        simp [batchLoop, List.append_assoc]
      rw [hstep] at he
      rcases List.mem_cons.mp he with rfl | he
      · refine ⟨rfl, ?_⟩
        intro h
        simp [isPerRouterEv, batchStartedEv] at h
      · rcases List.mem_append.mp he with he | he
        · rcases List.mem_flatten.mp he with ⟨li, hli, hei⟩
          rcases List.mem_map.mp hli with ⟨r, hr, rfl⟩
          have hf := routerTrace_fields jid gc r (envOf r.id) (pollsOf r.id)
            e hei
          exact ⟨perRouter_not_jobCompleted hf.1,
            fun _ => ⟨r, List.mem_of_mem_take hr, hf.2⟩⟩
        · rcases List.mem_append.mp he with he | he
          · rcases List.mem_cons.mp he with rfl | he
            · refine ⟨rfl, ?_⟩
              intro h
              simp [isPerRouterEv, batchCompletedEv] at h
            · rcases List.mem_cons.mp he with rfl | he
              · refine ⟨rfl, ?_⟩
                intro h
                simp [isPerRouterEv, jobProgressEv] at h
              · simp at he
          · rcases List.mem_append.mp he with he | he
            · have hw : e.type = EvType.batch_waiting := by
                by_cases hie : ((x :: xs).drop bs).isEmpty = true
                · rw [if_pos hie] at he
                  simp at he
                · rw [if_neg hie] at he
                  exact countdown_fields jid N (bNum + 1) e he
              refine ⟨by simp [hw], ?_⟩
              intro h
              rw [not_perRouter_of_waiting hw] at h
              simp at h
            · have := ih (bNum + 1) ((x :: xs).drop bs) e he
              exact ⟨this.1, fun h =>
                match this.2 h with
                | ⟨r, hr, hrid⟩ => ⟨r, List.mem_of_mem_drop hr, hrid⟩⟩

end Teltonika

namespace Teltonika

theorem batchRouters_zero (l : List RouterRow) (bs : Nat) :
    batchRouters l bs 0 = l.take bs := by
  simp [batchRouters]

theorem batchRouters_succ (l : List RouterRow) (bs b : Nat) :
    batchRouters l bs (b + 1) = batchRouters (l.drop bs) bs b := by
  unfold batchRouters
  rw [List.drop_drop]
  congr 2
  ring

theorem batchRouters_subset (l : List RouterRow) (bs b : Nat) :
    ∀ r ∈ batchRouters l bs b, r ∈ l := by
  intro r hr
  unfold batchRouters at hr
  exact List.mem_of_mem_drop (List.mem_of_mem_take hr)

/-- No event of the window head block carries a router id foreign to the
window. -/
theorem window_no_foreign_router (jid : String) (gc : Option Creds)
    (envOf : String → DeviceEnv) (pollsOf : String → Nat → Option String)
    (cur : List RouterRow) (rid : String)
    (hnot : ∀ r' ∈ cur, ¬(r'.id = rid)) :
    ∀ e ∈ (cur.map fun r =>
        routerTrace jid gc r (envOf r.id) (pollsOf r.id)).flatten,
      isPerRouterEv e = true → ¬(e.routerId = some rid) := by
  intro e he _ hco
  rcases List.mem_flatten.mp he with ⟨li, hli, hei⟩
  rcases List.mem_map.mp hli with ⟨r', hr', rfl⟩
  have hf := routerTrace_fields jid gc r' (envOf r'.id) (pollsOf r'.id) e hei
  rw [hf.2] at hco
  exact hnot r' hr' (Option.some.inj hco)

/-- The window whose routers contain `r` contributes a `batch_started` /
`batch_completed` bracket, and no event outside the bracketed segment is a
per-router event of `r`. -/
theorem batchLoop_bracket (jid : String) (gc : Option Creds)
    (envOf : String → DeviceEnv) (pollsOf : String → Nat → Option String)
    (bs N : Nat) (hbs : 0 < bs) :
    ∀ fuel l bNum b r, l.length ≤ fuel → r ∈ batchRouters l bs b →
      ((l.map fun rr => rr.id).Nodup) →
      ∃ A B C,
        batchLoop jid gc envOf pollsOf bs N fuel bNum l =
          A ++ batchStartedEv jid (bNum + b) ::
            (B ++ batchCompletedEv jid (bNum + b) :: C) ∧
        (∀ e ∈ A, isPerRouterEv e = true → ¬(e.routerId = some r.id)) ∧
        (∀ e ∈ C, isPerRouterEv e = true → ¬(e.routerId = some r.id)) := by
  intro fuel
  induction fuel with
  | zero =>
    intro l bNum b r hlen hr _
    have hnil : l = [] := List.eq_nil_of_length_eq_zero (Nat.le_zero.mp hlen)
    subst hnil
    simp [batchRouters] at hr
  | succ n ih =>
    intro l bNum b r hlen hr hnd
    cases l with
    | nil => simp [batchRouters] at hr
    | cons x xs =>
      have hstep : batchLoop jid gc envOf pollsOf bs N (n + 1) bNum (x :: xs) =
          batchStartedEv jid bNum ::
            ((((x :: xs).take bs).map fun rr =>
                routerTrace jid gc rr (envOf rr.id) (pollsOf rr.id)).flatten ++
              ([batchCompletedEv jid bNum, jobProgressEv jid] ++
                ((if ((x :: xs).drop bs).isEmpty then []
                  else countdown jid N (bNum + 1)) ++
                  batchLoop jid gc envOf pollsOf bs N n (bNum + 1)
                    ((x :: xs).drop bs)))) := by
        simp [batchLoop, List.append_assoc]
      have hsplit : (x :: xs).map (fun rr => rr.id)
          = ((x :: xs).take bs).map (fun rr => rr.id)
            ++ ((x :: xs).drop bs).map (fun rr => rr.id) := by
        rw [← List.map_append, List.take_append_drop]
      rw [hsplit] at hnd
      have hdisj := List.disjoint_of_nodup_append hnd
      cases b with
      | zero =>
        rw [batchRouters_zero] at hr
        refine ⟨[],
          (((x :: xs).take bs).map fun rr =>
            routerTrace jid gc rr (envOf rr.id) (pollsOf rr.id)).flatten,
          jobProgressEv jid ::
            ((if ((x :: xs).drop bs).isEmpty then []
              else countdown jid N (bNum + 1)) ++
              batchLoop jid gc envOf pollsOf bs N n (bNum + 1)
                ((x :: xs).drop bs)), ?_, ?_, ?_⟩
        · rw [hstep]
          simp
        · intro e he
          simp at he
        · intro e he hper
          rcases List.mem_cons.mp he with rfl | he
          · simp [isPerRouterEv, jobProgressEv] at hper
          · rcases List.mem_append.mp he with he | he
            · by_cases hie : ((x :: xs).drop bs).isEmpty = true
              · rw [if_pos hie] at he
                simp at he
              · rw [if_neg hie] at he
                have hw := countdown_fields jid N (bNum + 1) e he
                rw [not_perRouter_of_waiting hw] at hper
                simp at hper
            · intro hco
              rcases (batchLoop_mem jid gc envOf pollsOf bs N n (bNum + 1)
                  ((x :: xs).drop bs) e he).2 hper with ⟨r', hr', hrid⟩
              rw [hrid] at hco
              have hid : r'.id = r.id := Option.some.inj hco
              exact hdisj (List.mem_map_of_mem (fun rr => rr.id) hr)
                (hid ▸ List.mem_map_of_mem (fun rr => rr.id) hr')
      | succ b' =>
        have hr' : r ∈ batchRouters ((x :: xs).drop bs) bs b' := by
          rw [← batchRouters_succ]
          exact hr
        have hrin : r ∈ (x :: xs).drop bs :=
          batchRouters_subset _ bs b' r hr'
        have hlenrest : ((x :: xs).drop bs).length ≤ n := by
          rw [List.length_drop]
          simp only [List.length_cons] at hlen ⊢
          omega
        have hndrest : (((x :: xs).drop bs).map fun rr => rr.id).Nodup :=
          (List.nodup_append.mp hnd).2.1
        obtain ⟨A', B', C', heq, hA', hC'⟩ :=
          ih ((x :: xs).drop bs) (bNum + 1) b' r hlenrest hr' hndrest
        have harith : bNum + 1 + b' = bNum + (b' + 1) := by omega
        rw [harith] at heq
        refine ⟨batchStartedEv jid bNum ::
            ((((x :: xs).take bs).map fun rr =>
              routerTrace jid gc rr (envOf rr.id) (pollsOf rr.id)).flatten ++
              ([batchCompletedEv jid bNum, jobProgressEv jid] ++
                ((if ((x :: xs).drop bs).isEmpty then []
                  else countdown jid N (bNum + 1)) ++ A'))),
          B', C', ?_, ?_, hC'⟩
        · rw [hstep, heq]
          simp [List.append_assoc]
        · intro e he hper
          rcases List.mem_cons.mp he with rfl | he
          · simp [isPerRouterEv, batchStartedEv] at hper
          · rcases List.mem_append.mp he with he | he
            · refine window_no_foreign_router jid gc envOf pollsOf
                ((x :: xs).take bs) r.id ?_ e he hper
              intro r'' hr'' hco
              exact hdisj (hco ▸ List.mem_map_of_mem (fun rr => rr.id) hr'')
                (List.mem_map_of_mem (fun rr => rr.id) hrin)
            · rcases List.mem_append.mp he with he | he
              · rcases List.mem_cons.mp he with rfl | he
                · simp [isPerRouterEv, batchCompletedEv] at hper
                · rcases List.mem_cons.mp he with rfl | he
                  · simp [isPerRouterEv, jobProgressEv] at hper
                  · simp at he
              · rcases List.mem_append.mp he with he | he
                · by_cases hie : ((x :: xs).drop bs).isEmpty = true
                  · rw [if_pos hie] at he
                    simp at he
                  · rw [if_neg hie] at he
                    have hw := countdown_fields jid N (bNum + 1) e he
                    rw [not_perRouter_of_waiting hw] at hper
                    simp at hper
                · exact hA' e he hper

end Teltonika

namespace Teltonika

/-- C4 (amended, uncancelled runs): in the delivery order of one job that is
never cancelled, `job_started` is the first event (hence it precedes every
per-router event), `job_completed` is emitted exactly once and is the last
event, and for every router `r` of window `b` the trace decomposes around the
`batch_started`/`batch_completed` bracket of that window such that no
per-router event of `r` occurs outside the bracketed segment — i.e.
`batch_started` precedes all per-router events of its batch and
`batch_completed` follows them.  (When the job is cancelled mid-batch the
cancel endpoint emits additional `job_completed` events ahead of the
in-flight batch, see the counterexample below.) -/
theorem jobTrace_ordering (jid : String) (gc : Option Creds)
    (envOf : String → DeviceEnv) (pollsOf : String → Nat → Option String)
    (bs N : Nat) (routers : List RouterRow) (hbs : 0 < bs)
    (hnd : (routers.map fun r => r.id).Nodup) :
    (jobTrace jid gc envOf pollsOf bs N routers).head?
      = some (jobStartedEv jid) ∧
    (jobTrace jid gc envOf pollsOf bs N routers).getLast?
      = some (jobCompletedEv jid "completed") ∧
    (jobTrace jid gc envOf pollsOf bs N routers).countP
      (fun e => e.type == EvType.job_completed) = 1 ∧
    (∀ b r, r ∈ batchRouters routers bs b →
      ∃ A B C,
        jobTrace jid gc envOf pollsOf bs N routers =
          A ++ batchStartedEv jid (b + 1) ::
            (B ++ batchCompletedEv jid (b + 1) :: C) ∧
        (∀ e ∈ A, isPerRouterEv e = true → ¬(e.routerId = some r.id)) ∧
        (∀ e ∈ C, isPerRouterEv e = true → ¬(e.routerId = some r.id))) := by
  refine ⟨rfl, ?_, ?_, ?_⟩
  · show (jobStartedEv jid ::
        (batchLoop jid gc envOf pollsOf bs N routers.length 1 routers ++
          [jobCompletedEv jid "completed"])).getLast?
      = some (jobCompletedEv jid "completed")
    rw [show jobStartedEv jid ::
        (batchLoop jid gc envOf pollsOf bs N routers.length 1 routers ++
          [jobCompletedEv jid "completed"])
      = (jobStartedEv jid ::
          batchLoop jid gc envOf pollsOf bs N routers.length 1 routers) ++
          [jobCompletedEv jid "completed"] from rfl]
    exact List.getLast?_concat _
  · have hloop : (batchLoop jid gc envOf pollsOf bs N
        routers.length 1 routers).countP
          (fun e => e.type == EvType.job_completed) = 0 := by
      apply List.countP_eq_zero.mpr
      intro e he
      simp [(batchLoop_mem jid gc envOf pollsOf bs N
        routers.length 1 routers e he).1]
    show (jobStartedEv jid ::
        (batchLoop jid gc envOf pollsOf bs N routers.length 1 routers ++
          [jobCompletedEv jid "completed"])).countP
      (fun e => e.type == EvType.job_completed) = 1
    rw [List.countP_cons, List.countP_append, hloop]
    rfl
  · intro b r hr
    obtain ⟨A, B, C, heq, hA, hC⟩ := batchLoop_bracket jid gc envOf pollsOf
      bs N hbs routers.length routers 1 b r (Nat.le_refl _) hr hnd
    have harith : 1 + b = b + 1 := by omega
    rw [harith] at heq
    refine ⟨jobStartedEv jid :: A, B,
      C ++ [jobCompletedEv jid "completed"], ?_, ?_, ?_⟩
    · show jobStartedEv jid ::
          (batchLoop jid gc envOf pollsOf bs N routers.length 1 routers ++
            [jobCompletedEv jid "completed"]) = _
      rw [heq]
      simp [List.append_assoc]
    · intro e he hper
      rcases List.mem_cons.mp he with rfl | he
      · simp [isPerRouterEv, jobStartedEv] at hper
      · exact hA e he hper
    · intro e he hper
      rcases List.mem_append.mp he with he | he
      · exact hC e he hper
      · rcases List.mem_singleton.mp he with rfl
        simp [isPerRouterEv, jobCompletedEv] at hper

/-- Witness for C4 at a concrete uncancelled run (one router, window size 1):
the final event is the single `job_completed`. -/
theorem jobTrace_ordering_witness :
    (jobTrace "job" none envOfAll pollsOfAll 1 0 [happyRouter]).getLast?
      = some (jobCompletedEv "job" "completed") := by
  exact (jobTrace_ordering "job" none envOfAll pollsOfAll 1 0 [happyRouter]
    (by decide) (by decide)).2.1

/-- Delivery order observed by a subscriber when the operator cancels the job
while batch 1 is in flight, for two routers and `batchSize 1`.  This is an
admissible schedule of the source: each pipeline emits `router_started` and
the `downloading` progress synchronously and then suspends awaiting its first
remote command; the cancel `DELETE` handler runs at that suspension point,
emitting its `job_completed(status cancelled)` immediately (batch update
route lines 370-400) while the in-flight pipeline later resumes, and the loop
then emits `batch_completed`, `job_progress`, the abort-check
`job_completed` at the top of the next iteration, and the final
`job_completed` after the loop. -/
def cancelMidBatchTrace : List Ev :=
  let rt := routerTrace "job" (some ⟨"root", "pw"⟩) happyRouter
    flashClosedEnv (pollsOfAll happyRouter.id)
  jobStartedEv "job" :: batchStartedEv "job" 1 ::
    (rt.take 2 ++ [jobCompletedEv "job" "cancelled"] ++ rt.drop 2 ++
      [batchCompletedEv "job" 1, jobProgressEv "job",
        jobCompletedEv "job" "cancelled", jobCompletedEv "job" "cancelled"])

/-- Counterexample to C4 as stated: in the cancelled run above, the
`job_completed` event the cancel endpoint emits (position 4) precedes the
`batch_completed` of the still-running batch (position 7), so `job_completed`
is not the last event of the job, and `batch_completed` does not follow all
events of the job that precede it in the claimed order. -/
theorem jobTrace_ordering_claim_false :
    cancelMidBatchTrace[4]? = some (jobCompletedEv "job" "cancelled") ∧
    cancelMidBatchTrace[7]? = some (batchCompletedEv "job" 1) ∧
    (cancelMidBatchTrace.countP
      (fun e => e.type == EvType.job_completed)) = 3 := by
  refine ⟨by decide, by decide, by decide⟩

end Teltonika
